import Mathlib

/-!
Verification of the versioned-parser registry (src/src/index.ts).

The runtime core is `createVersionedParser`, which closes over an ordered
list `versions` of parse routines (newest first) and returns an object with
four functions: `parseLatest`, `parseAny`, `parseSpecific`, `getAllParseFns`.

Embedding choices:
- A parse routine (`ParseFn` in src/types) takes one input and either
  returns a value or throws; we embed it as `α → Except ε β`, where `ε` is
  the (arbitrary) type of thrown values.
- A value observed thrown out of a registry operation is either a value
  thrown by a caller-supplied routine (`userErr`) or the host TypeError
  produced when JavaScript invokes a nonexistent array element
  (`hostTypeError`), as happens for `versions[i](input)` with `i` out of
  bounds.
- The aggregate error thrown by `parseAny` is a fresh `Error` whose message
  is the template string
  `Failed to parse metadata (no version matched): ${input}`; we embed the
  host's string coercion of the input as an explicit `render : α → String`
  parameter and the thrown error by its message.
-/

namespace VersionedParser

variable {α ε β : Type}

/-- A JavaScript thrown value as observed from a registry operation: either a
value thrown by a caller-supplied routine, or the host TypeError raised when
invoking a nonexistent array element. -/
inductive JsThrow (ε : Type) where
  | userErr : ε → JsThrow ε
  | hostTypeError : JsThrow ε
  deriving DecidableEq

/-- Embedding of `ParseFn` from src/types: a routine takes one input and
either returns an output (`Except.ok`) or throws a value (`Except.error`). -/
abbrev ParseFn (α ε β : Type) : Type := α → Except ε β

/-- Directly invoking a routine from the host: a normal return surfaces as
`ok`, and a thrown value surfaces unmodified as a user throw. -/
def invoke (f : ParseFn α ε β) (input : α) : Except (JsThrow ε) β :=
  (f input).mapError JsThrow.userErr

/-- Embedding of `parseLatest` (src/src/index.ts lines 69-71):
`return versions[0](input)`. On an empty list, `versions[0]` is `undefined`
and invoking it raises the host TypeError. -/
def parseLatest (versions : List (ParseFn α ε β)) (input : α) :
    Except (JsThrow ε) β :=
  match versions with
  | [] => Except.error JsThrow.hostTypeError
  | f :: _ => (f input).mapError JsThrow.userErr

/-- The message of the aggregate error thrown by `parseAny` when no version
matches: the template string from src/src/index.ts line 92, with `render`
standing for the host's string coercion of the input. -/
def noMatchMsg (render : α → String) (input : α) : String :=
  "Failed to parse metadata (no version matched): " ++ render input

/-- Embedding of `parseAny` (src/src/index.ts lines 79-93): scan `versions`
in order; each attempt's throw is caught and the scan continues; the first
normal return is returned; when the list is exhausted a new aggregate error
is thrown. Its error type is `String` (the aggregate error's message): the
per-version thrown values are caught and discarded by the `catch` clause and
cannot appear in the result. -/
def parseAny (versions : List (ParseFn α ε β)) (render : α → String)
    (input : α) : Except String β :=
  match versions with
  | [] => Except.error (noMatchMsg render input)
  | f :: rest =>
    match f input with
    | Except.ok v => Except.ok v
    | Except.error _ => parseAny rest render input

/-- Embedding of `parseSpecific` (src/src/index.ts lines 101-103):
`return versions[versionIndex](input)`, with no bounds check; an
out-of-range index makes `versions[versionIndex]` `undefined`, whose
invocation raises the host TypeError. -/
def parseSpecific (versions : List (ParseFn α ε β)) (i : Nat) (input : α) :
    Except (JsThrow ε) β :=
  match versions[i]? with
  | some f => (f input).mapError JsThrow.userErr
  | none => Except.error JsThrow.hostTypeError

/-- The registry object returned by `createVersionedParser`. -/
structure Parser (α ε β : Type) where
  parseLatest : α → Except (JsThrow ε) β
  parseAny : α → Except String β
  parseSpecific : Nat → α → Except (JsThrow ε) β
  getAllParseFns : List (ParseFn α ε β)

/-- Embedding of `createVersionedParser` (src/src/index.ts lines 60-119). -/
def createVersionedParser (versions : List (ParseFn α ε β))
    (render : α → String) : Parser α ε β where
  parseLatest := VersionedParser.parseLatest versions
  parseAny := VersionedParser.parseAny versions render
  parseSpecific := VersionedParser.parseSpecific versions
  getAllParseFns := versions

/-- One call a caller can make on a registry. -/
inductive Op (α : Type) where
  | latest : α → Op α
  | any : α → Op α
  | specific : Nat → α → Op α
  | getAll : Op α

/-- The observable outcome of one registry call. -/
inductive OpResult (α ε β : Type) where
  | thrown : Except (JsThrow ε) β → OpResult α ε β
  | anyRes : Except String β → OpResult α ε β
  | fns : List (ParseFn α ε β) → OpResult α ε β

/-- Running one call on a registry: each of the four functions in the source
only reads the captured `versions` binding (there is no assignment anywhere
in the closure), so the registry after the call is the same registry. -/
def runOp (p : Parser α ε β) : Op α → Parser α ε β × OpResult α ε β
  | Op.latest input => (p, OpResult.thrown (p.parseLatest input))
  | Op.any input => (p, OpResult.anyRes (p.parseAny input))
  | Op.specific i input => (p, OpResult.thrown (p.parseSpecific i input))
  | Op.getAll => (p, OpResult.fns p.getAllParseFns)

/-- Running a sequence of calls, threading the registry state. -/
def runOps (p : Parser α ε β) : List (Op α) → Parser α ε β
  | [] => p
  | op :: ops => runOps (runOp p op).1 ops

/-- Concrete routines for witnesses, mirroring the spec's scenario of three
schema versions with increasingly strict requirements. -/
def v3fn : ParseFn Nat String Nat :=
  fun n => if 3 ≤ n then Except.ok (n * 10) else Except.error "needs 3"

def v2fn : ParseFn Nat String Nat :=
  fun n => if 2 ≤ n then Except.ok (n * 100) else Except.error "needs 2"

def v1fn : ParseFn Nat String Nat :=
  fun n => if 1 ≤ n then Except.ok (n * 1000) else Except.error "needs 1"

/-- A routine returning a null-like sentinel value (embedded as `none`). -/
def nullishFn : ParseFn Nat String (Option Nat) :=
  fun _ => Except.ok none

/-- A routine that accepts every input, used as a later list element. -/
def laterAcceptsFn : ParseFn Nat String (Option Nat) :=
  fun n => Except.ok (some n)

/-- C3: for every non-empty version list and every input, `parseLatest`
behaves exactly as invoking the routine at index 0 directly on that input:
the same value is returned when that routine returns, and the routine's
thrown failure propagates unmodified when it throws. -/
theorem parseLatest_invokes_head (f : ParseFn α ε β)
    (rest : List (ParseFn α ε β)) (render : α → String) (input : α) :
    (createVersionedParser (f :: rest) render).parseLatest input
      = invoke f input := rfl

/-- C4: for every version list, every valid index `i`, and every input,
`parseSpecific i input` behaves exactly as invoking the routine at index `i`
directly on that input: same value on success, the routine's thrown failure
propagated unmodified on failure. -/
theorem parseSpecific_invokes_at (versions : List (ParseFn α ε β))
    (render : α → String) (i : Nat) (h : i < versions.length) (input : α) :
    (createVersionedParser versions render).parseSpecific i input
      = invoke (versions.get ⟨i, h⟩) input := by
  simp [createVersionedParser, parseSpecific, invoke,
    List.getElem?_eq_getElem h]

/-- C4 witness: on the three-routine registry, `parseSpecific 2` at input 1
equals invoking the routine at index 2 directly. -/
theorem parseSpecific_invokes_at_witness :
    (createVersionedParser [v3fn, v2fn, v1fn] toString).parseSpecific 2 1
      = invoke (List.get [v3fn, v2fn, v1fn] ⟨2, by decide⟩) 1 :=
  parseSpecific_invokes_at [v3fn, v2fn, v1fn] toString 2 (by decide) 1

/-- C5: `parseSpecific` performs no runtime bounds check: under the
precondition `i < versions.length` the indexed access always yields a
routine and the invocation proceeds (the result is exactly that routine's),
while an out-of-range index is an unchecked precondition violation whose
effect is the host environment's semantics for invoking a nonexistent
element (the host TypeError) — never a dedicated "index out of range"
failure. The compile-time restriction of the index type to the list's
length (`SpecificVersion` in src/types) is type-level only and leaves no
runtime trace, which is exactly what these two equations express. -/
theorem parseSpecific_no_bounds_check (versions : List (ParseFn α ε β))
    (render : α → String) (i : Nat) (input : α) :
    (∀ h : i < versions.length,
        (createVersionedParser versions render).parseSpecific i input
          = invoke (versions.get ⟨i, h⟩) input)
    ∧ (versions.length ≤ i →
        (createVersionedParser versions render).parseSpecific i input
          = Except.error JsThrow.hostTypeError) := by
  constructor
  · intro h
    simp [createVersionedParser, parseSpecific, invoke,
      List.getElem?_eq_getElem h]
  · intro h
    simp [createVersionedParser, parseSpecific,
      List.getElem?_eq_none_iff.mpr h]

/-- C5 witness: on a one-routine registry, the out-of-range index 5 yields
the host TypeError, and the in-range index 0 proceeds with the routine. -/
theorem parseSpecific_no_bounds_check_witness :
    (createVersionedParser [v3fn] toString).parseSpecific 5 0
        = Except.error JsThrow.hostTypeError
    ∧ (createVersionedParser [v3fn] toString).parseSpecific 0 7
        = invoke (List.get [v3fn] ⟨0, by decide⟩) 7 :=
  ⟨(parseSpecific_no_bounds_check [v3fn] toString 5 0).2 (by decide),
   (parseSpecific_no_bounds_check [v3fn] toString 0 7).1 (by decide)⟩

/-- C6: on a registry constructed with an empty version list, `parseAny`
raises the aggregate "no version matched" failure immediately for every
input — there is no routine to attempt, so the scan loop body never
executes. -/
theorem parseAny_empty (render : α → String) (input : α) :
    (createVersionedParser ([] : List (ParseFn α ε β)) render).parseAny input
      = Except.error (noMatchMsg render input) := rfl

/-- C7: `getAllParseFns` returns the full ordered version list exactly as
supplied at construction: the same list, same length, same routines, same
order, unmodified. -/
theorem getAllParseFns_returns_construction (versions : List (ParseFn α ε β))
    (render : α → String) :
    (createVersionedParser versions render).getAllParseFns = versions := rfl

/-- C8: the registry's only state, the version list, is immutable after
construction: no sequence of operations changes the registry at all, so
`getAllParseFns` returns the construction list after any operation sequence
and no operation changes the behavior of any subsequent operation. -/
theorem registry_immutable (versions : List (ParseFn α ε β))
    (render : α → String) (ops : List (Op α)) :
    runOps (createVersionedParser versions render) ops
        = createVersionedParser versions render
    ∧ (runOps (createVersionedParser versions render) ops).getAllParseFns
        = versions := by
  have h : ∀ (p : Parser α ε β) (l : List (Op α)), runOps p l = p := by
    intro p l
    induction l with
    | nil => rfl
    | cons op l ih => cases op <;> simpa [runOps, runOp] using ih
  exact ⟨h _ ops, by simp [h _ ops, createVersionedParser]⟩

/-- C1: for every version list and every input, if at least one routine
accepts the input, then `parseAny` returns the result produced by the first
(lowest-index, i.e. newest) routine that accepts it: whenever every routine
at an index below `i` throws and the routine at index `i` returns `v`, the
scan from index 0 upward reaches exactly index `i` and returns its result,
never a later routine's. -/
theorem parseAny_first_accepting (versions : List (ParseFn α ε β))
    (render : α → String) (input : α) (i : Nat) (v : β)
    (hfirst : ∀ j, j < i →
        ∃ g e, versions[j]? = some g ∧ g input = Except.error e)
    (hacc : ∃ g, versions[i]? = some g ∧ g input = Except.ok v) :
    parseAny versions render input = Except.ok v := by
  induction versions generalizing i with
  | nil =>
    obtain ⟨g, hg, -⟩ := hacc
    simp at hg
  | cons f rest ih =>
    cases i with
    | zero =>
      obtain ⟨g, hg, hgv⟩ := hacc
      rw [List.getElem?_cons_zero, Option.some_inj] at hg
      subst hg
      simp [parseAny, hgv]
    | succ k =>
      obtain ⟨g, e, hg, hge⟩ := hfirst 0 (Nat.succ_pos k)
      rw [List.getElem?_cons_zero, Option.some_inj] at hg
      subst hg
      simp only [parseAny, hge]
      refine ih k ?_ ?_
      · intro j hj
        simpa using hfirst (j + 1) (Nat.succ_lt_succ hj)
      · simpa using hacc

/-- C1 witness: on input 2, the newest routine throws, the routine at index
1 accepts with result 200, and the oldest routine (index 2) would also
accept (yielding 2000) — `parseAny` returns 200, the first match. -/
theorem parseAny_first_accepting_witness :
    parseAny [v3fn, v2fn, v1fn] toString 2 = Except.ok 200 :=
  parseAny_first_accepting [v3fn, v2fn, v1fn] toString 2 1 200
    (by
      intro j hj
      interval_cases j
      exact ⟨v3fn, "needs 3", rfl, rfl⟩)
    ⟨v2fn, rfl, rfl⟩

/-- C2: for every version list and every input, if every routine throws on
the input, then `parseAny` throws a single new aggregate failure whose
message is the fixed template text followed by the rendering of the
original input. The result is fully determined by the input alone — the
individual per-version thrown values do not appear in it (they are caught
and discarded; the aggregate error's type cannot even carry them). -/
theorem parseAny_all_fail (versions : List (ParseFn α ε β))
    (render : α → String) (input : α)
    (hall : ∀ f ∈ versions, ∃ e, f input = Except.error e) :
    parseAny versions render input
      = Except.error ("Failed to parse metadata (no version matched): "
          ++ render input) := by
  induction versions with
  | nil => rfl
  | cons f rest ih =>
    obtain ⟨e, he⟩ := hall f (List.mem_cons_self f rest)
    simp only [parseAny, he]
    exact ih fun g hg => hall g (List.mem_cons_of_mem f hg)

/-- C2 witness: on input 0 all three routines throw, and `parseAny` throws
the aggregate failure whose message embeds the rendering of the input. -/
theorem parseAny_all_fail_witness :
    parseAny [v3fn, v2fn, v1fn] toString 0
      = Except.error "Failed to parse metadata (no version matched): 0" :=
  parseAny_all_fail [v3fn, v2fn, v1fn] toString 0
    (by
      intro f hf
      simp only [List.mem_cons, List.not_mem_nil, or_false] at hf
      rcases hf with h | h | h
      · exact ⟨"needs 3", by subst h; rfl⟩
      · exact ⟨"needs 2", by subst h; rfl⟩
      · exact ⟨"needs 1", by subst h; rfl⟩)

/-- C9: during the scan in `parseAny`, every thrown value raised by an
attempted routine — `ε` is arbitrary, so this covers any thrown value, not
only validation failures — is caught and treated purely as a signal to
advance to the next candidate (first conjunct), and no value thrown by an
individual routine can ever escape a `parseAny` call: the only error
`parseAny` can ever produce is the aggregate no-match failure (second
conjunct). -/
theorem parseAny_catches_every_throw (render : α → String) (input : α) :
    (∀ (f : ParseFn α ε β) (rest : List (ParseFn α ε β)) (e : ε),
        f input = Except.error e →
        parseAny (f :: rest) render input = parseAny rest render input)
    ∧ ∀ (versions : List (ParseFn α ε β)) (msg : String),
        parseAny versions render input = Except.error msg →
        msg = noMatchMsg render input := by
  constructor
  · intro f rest e he
    simp [parseAny, he]
  · intro versions msg h
    induction versions with
    | nil =>
      simp only [parseAny] at h
      injection h with h2
      exact h2.symm
    | cons f rest ih =>
      simp only [parseAny] at h
      cases hf : f input with
      | ok v =>
        rw [hf] at h
        simp at h
      | error e =>
        rw [hf] at h
        exact ih h

/-- C9 witness: the newest routine throws on input 1; the throw is caught
and the scan continues exactly as on the remaining list. -/
theorem parseAny_catches_every_throw_witness :
    parseAny [v3fn, v1fn] toString 1 = parseAny [v1fn] toString 1 :=
  (parseAny_catches_every_throw toString 1).1 v3fn [v1fn] "needs 3" rfl

/-- C10: in `parseAny`, success of a routine is determined solely by its
returning without throwing: the first routine that returns has its value
passed through unchanged as the result, even when that value is a
null-like sentinel (here any `v : β`, including `none` of an option type);
the value is never inspected and no later routine is attempted. -/
theorem parseAny_first_return_passed_through (f : ParseFn α ε β)
    (rest : List (ParseFn α ε β)) (render : α → String) (input : α) (v : β)
    (h : f input = Except.ok v) :
    parseAny (f :: rest) render input = Except.ok v := by
  simp [parseAny, h]

/-- C10 witness: a routine returning the null-like sentinel `none` counts as
success and its value is passed through, even though the next routine would
also accept the input. -/
theorem parseAny_first_return_passed_through_witness :
    parseAny [nullishFn, laterAcceptsFn] toString 7 = Except.ok none :=
  parseAny_first_return_passed_through nullishFn [laterAcceptsFn]
    toString 7 none rfl

end VersionedParser
